import Mathlib

/-!
Verification of the natural-language specification of the pg-mcp
natural-language-to-SQL query gateway against its implementation.

The retry policy (src/pg_mcp/resilience/retry.py) and configuration
loading (src/pg_mcp/config/settings.py) are embedded directly from the
source.  The SQL validator, SQL executor and query orchestrator are only
present in the repository through their test suites, so those components
are modelled from the specification (each such definition carries a
doc comment starting with "Modelled from the spec:").

Python floats appearing as configuration values (delays, backoff factors)
are embedded as rationals; machine-level floating point is not modelled.
-/

/-- Exception taxonomy of the system, embedding the Python exception
classes that `retry.py` distinguishes: the members of
`DEFAULT_RETRIABLE_EXCEPTIONS` (asyncpg connection errors,
`asyncio.TimeoutError`, `OSError`) together with the non-retriable
application errors (`SecurityViolationError`, `SQLParseError`, ...). -/
inductive PyExc where
  | connectionDoesNotExist
  | connectionFailure
  | postgresConnection
  | tooManyConnections
  | timeoutError
  | osError
  | securityViolation (msg : String)
  | sqlParseError (msg : String)
  | llmError (msg : String)
  | runtimeError (msg : String)
  | otherExc (name : String)
deriving DecidableEq, Repr

/-- Membership test of `DEFAULT_RETRIABLE_EXCEPTIONS` from
`src/pg_mcp/resilience/retry.py` lines 23-30: connection failures,
timeouts and OS-level network errors are retriable, nothing else. -/
def isRetriableDefault : PyExc → Bool
  | .connectionDoesNotExist => true
  | .connectionFailure => true
  | .postgresConnection => true
  | .tooManyConnections => true
  | .timeoutError => true
  | .osError => true
  | _ => false

/-- `RetryConfig` from `retry.py`: delays are embedded as rationals and
the tuple of retriable exception types as a membership predicate. -/
structure RetryConfig where
  max_attempts : Nat
  initial_delay : ℚ
  backoff_factor : ℚ
  max_delay : ℚ
  retriable : PyExc → Bool

/-- The constructor validation of `RetryConfig.__init__` (retry.py lines
70-77): `max_attempts ≥ 1`, `initial_delay ≥ 0`, `backoff_factor ≥ 1`,
`max_delay ≥ initial_delay`. -/
def RetryConfig.valid (c : RetryConfig) : Prop :=
  1 ≤ c.max_attempts ∧ 0 ≤ c.initial_delay ∧
    1 ≤ c.backoff_factor ∧ c.initial_delay ≤ c.max_delay

/-- Observable trace of one `retry_with_backoff` run: the final outcome
(the returned value or the exception propagated to the caller), the
sequence of `asyncio.sleep` delays performed, and the number of times
the wrapped operation was invoked. -/
structure RunResult (α : Type) where
  outcome : Except PyExc α
  sleeps : List ℚ
  calls : Nat
deriving Repr

/-- The loop body of `retry_with_backoff` (retry.py lines 118-182).
The wrapped operation is embedded as a function from the (1-based)
attempt number to its result.  `fuel` counts the loop iterations still
available (`config.max_attempts` at entry), `attempt` is the current
attempt number, `delay` the current backoff delay, `sleeps` the sleeps
performed so far and `last` the last retriable exception caught.
A retriable failure sleeps and updates the delay only when
`attempt < max_attempts`, exactly as the `if attempt < config.max_attempts`
branch of the source; a non-retriable failure re-raises at once; when the
loop ends the last exception is raised (or the guard `RuntimeError` when
no attempt ever ran). -/
def retryGo {α : Type} (op : Nat → Except PyExc α) (cfg : RetryConfig) :
    Nat → Nat → ℚ → List ℚ → Option PyExc → RunResult α
  | 0, attempt, _, sleeps, last =>
      ⟨.error (last.getD (.runtimeError "Retry logic error: no exception but no success")),
        sleeps, attempt - 1⟩
  | fuel + 1, attempt, delay, sleeps, _last =>
      match op attempt with
      | .ok v => ⟨.ok v, sleeps, attempt⟩
      | .error e =>
          if cfg.retriable e then
            if attempt < cfg.max_attempts then
              retryGo op cfg fuel (attempt + 1)
                (min (delay * cfg.backoff_factor) cfg.max_delay)
                (sleeps ++ [delay]) (some e)
            else
              retryGo op cfg fuel (attempt + 1) delay sleeps (some e)
          else ⟨.error e, sleeps, attempt⟩

/-- `retry_with_backoff(func, config)` from retry.py: run the loop from
attempt 1 with `delay = config.initial_delay`. -/
def retry_with_backoff {α : Type} (op : Nat → Except PyExc α) (cfg : RetryConfig) :
    RunResult α :=
  retryGo op cfg cfg.max_attempts 1 cfg.initial_delay [] none

/-- The backoff delay schedule: `delaySeq cfg k` is the delay slept after
the `(k+1)`-st retriable failure, i.e. the spec recurrence
`d 1 = initial_delay`, `d (k+1) = min (d k * backoff_factor) max_delay`
indexed from 0. -/
def delaySeq (cfg : RetryConfig) : Nat → ℚ
  | 0 => cfg.initial_delay
  | k + 1 => min (delaySeq cfg k * cfg.backoff_factor) cfg.max_delay

/-- Invariant satisfied by every completed retry run: the recorded sleeps
follow the backoff schedule, there is exactly one sleep per call except
the last, and every call before the last raised a retriable exception. -/
def GoodRun {α : Type} (op : Nat → Except PyExc α) (cfg : RetryConfig)
    (r : RunResult α) : Prop :=
  r.sleeps = (List.range r.sleeps.length).map (delaySeq cfg) ∧
  r.sleeps.length = r.calls - 1 ∧
  ∀ j, 1 ≤ j → j < r.calls → ∃ e, op j = .error e ∧ cfg.retriable e = true

lemma retryGo_schedule {α : Type} (op : Nat → Except PyExc α) (cfg : RetryConfig) :
    ∀ (fuel attempt : Nat) (delay : ℚ) (sleeps : List ℚ) (last : Option PyExc),
      fuel + attempt = cfg.max_attempts + 1 →
      attempt ≤ cfg.max_attempts →
      attempt = sleeps.length + 1 →
      delay = delaySeq cfg sleeps.length →
      sleeps = (List.range sleeps.length).map (delaySeq cfg) →
      (∀ j, 1 ≤ j → j < attempt → ∃ e, op j = .error e ∧ cfg.retriable e = true) →
      GoodRun op cfg (retryGo op cfg fuel attempt delay sleeps last) := by
  intro fuel
  induction fuel with
  | zero =>
      intro attempt delay sleeps last h1 h2 _ _ _ _
      omega
  | succ n ih =>
      intro attempt delay sleeps last h1 h2 h3 h4 h5 h6
      cases hop : op attempt with
      | ok v =>
          simp only [retryGo, hop, GoodRun]
          exact ⟨h5, by omega, fun j hj1 hj2 => h6 j hj1 (by omega)⟩
      | error e =>
          cases hre : cfg.retriable e with
          | false =>
              simp only [retryGo, hop, hre, Bool.false_eq_true, if_false, GoodRun]
              exact ⟨h5, by omega, fun j hj1 hj2 => h6 j hj1 (by omega)⟩
          | true =>
              by_cases hlt : attempt < cfg.max_attempts
              · simp only [retryGo, hop, hre, if_true, hlt]
                have hlen : (sleeps ++ [delay]).length = sleeps.length + 1 := by
                  simp
                apply ih (attempt + 1)
                · omega
                · omega
                · omega
                · rw [hlen, h4]; rfl
                · rw [hlen, List.range_succ, List.map_append]
                  simp [← h5, h4]
                · intro j hj1 hj2
                  rcases Nat.lt_or_ge j attempt with hcase | hcase
                  · exact h6 j hj1 hcase
                  · have hj : j = attempt := by omega
                    subst hj
                    exact ⟨e, hop, hre⟩
              · have hfa : n = 0 := by omega
                subst hfa
                simp only [retryGo, hop, hre, if_true, hlt, if_false, GoodRun]
                refine ⟨h5, by omega, fun j hj1 hj2 => ?_⟩
                simp only at hj2
                rcases Nat.lt_or_ge j attempt with hcase | hcase
                · exact h6 j hj1 hcase
                · have hj : j = attempt := by omega
                  subst hj
                  exact ⟨e, hop, hre⟩

lemma retry_schedule {α : Type} (op : Nat → Except PyExc α) (cfg : RetryConfig) :
    GoodRun op cfg (retry_with_backoff op cfg) := by
  rcases Nat.eq_zero_or_pos cfg.max_attempts with h0 | hpos
  · unfold retry_with_backoff
    rw [h0]
    simp only [retryGo, GoodRun]
    exact ⟨by simp, by simp, fun j hj1 hj2 => by simp at hj2⟩
  · exact retryGo_schedule op cfg cfg.max_attempts 1 cfg.initial_delay [] none
      (by omega) hpos (by simp) rfl (by simp) (fun j hj1 hj2 => by omega)

lemma retryGo_calls_le {α : Type} (op : Nat → Except PyExc α) (cfg : RetryConfig) :
    ∀ (fuel attempt : Nat) (delay : ℚ) (sleeps : List ℚ) (last : Option PyExc),
      fuel + attempt = cfg.max_attempts + 1 →
      1 ≤ attempt →
      (retryGo op cfg fuel attempt delay sleeps last).calls ≤ cfg.max_attempts := by
  intro fuel
  induction fuel with
  | zero =>
      intro attempt delay sleeps last h1 h2
      simp only [retryGo]
      omega
  | succ n ih =>
      intro attempt delay sleeps last h1 h2
      cases hop : op attempt with
      | ok v =>
          simp only [retryGo, hop]
          omega
      | error e =>
          cases hre : cfg.retriable e with
          | false =>
              simp only [retryGo, hop, hre, Bool.false_eq_true, if_false]
              omega
          | true =>
              by_cases hlt : attempt < cfg.max_attempts
              · simp only [retryGo, hop, hre, if_true, hlt]
                exact ih (attempt + 1) _ _ _ (by omega) (by omega)
              · simp only [retryGo, hop, hre, if_true, hlt, if_false]
                exact ih (attempt + 1) _ _ _ (by omega) (by omega)

lemma retryGo_first_ok {α : Type} (op : Nat → Except PyExc α) (cfg : RetryConfig)
    (a : Nat) (v : α) :
    ∀ (fuel attempt : Nat) (delay : ℚ) (sleeps : List ℚ) (last : Option PyExc),
      fuel + attempt = cfg.max_attempts + 1 →
      attempt ≤ cfg.max_attempts →
      attempt = sleeps.length + 1 →
      attempt ≤ a → a ≤ cfg.max_attempts →
      op a = .ok v →
      (∀ j, attempt ≤ j → j < a → ∃ e, op j = .error e ∧ cfg.retriable e = true) →
      (retryGo op cfg fuel attempt delay sleeps last).outcome = .ok v ∧
      (retryGo op cfg fuel attempt delay sleeps last).calls = a ∧
      (retryGo op cfg fuel attempt delay sleeps last).sleeps.length = a - 1 := by
  intro fuel
  induction fuel with
  | zero =>
      intro attempt delay sleeps last h1 h2 _ _ _ _ _
      omega
  | succ n ih =>
      intro attempt delay sleeps last h1 h2 h3 h4 h5 hok hprev
      rcases Nat.eq_or_lt_of_le h4 with heq | hlt2
      · subst heq
        simp only [retryGo, hok]
        exact ⟨by trivial, by trivial, by omega⟩
      · obtain ⟨e, hop, hre⟩ := hprev attempt (by omega) hlt2
        have hlt : attempt < cfg.max_attempts := by omega
        simp only [retryGo, hop, hre, if_true, hlt]
        apply ih (attempt + 1)
        · omega
        · omega
        · simp; omega
        · omega
        · exact h5
        · exact hok
        · intro j hj1 hj2
          exact hprev j (by omega) hj2

lemma retryGo_first_bad {α : Type} (op : Nat → Except PyExc α) (cfg : RetryConfig)
    (a : Nat) (e : PyExc) :
    ∀ (fuel attempt : Nat) (delay : ℚ) (sleeps : List ℚ) (last : Option PyExc),
      fuel + attempt = cfg.max_attempts + 1 →
      attempt ≤ cfg.max_attempts →
      attempt = sleeps.length + 1 →
      attempt ≤ a → a ≤ cfg.max_attempts →
      op a = .error e → cfg.retriable e = false →
      (∀ j, attempt ≤ j → j < a → ∃ e2, op j = .error e2 ∧ cfg.retriable e2 = true) →
      (retryGo op cfg fuel attempt delay sleeps last).outcome = .error e ∧
      (retryGo op cfg fuel attempt delay sleeps last).calls = a ∧
      (retryGo op cfg fuel attempt delay sleeps last).sleeps.length = a - 1 := by
  intro fuel
  induction fuel with
  | zero =>
      intro attempt delay sleeps last h1 h2 _ _ _ _ _ _
      omega
  | succ n ih =>
      intro attempt delay sleeps last h1 h2 h3 h4 h5 herr hbad hprev
      rcases Nat.eq_or_lt_of_le h4 with heq | hlt2
      · subst heq
        simp only [retryGo, herr, hbad, Bool.false_eq_true, if_false]
        exact ⟨by trivial, by trivial, by omega⟩
      · obtain ⟨e2, hop, hre⟩ := hprev attempt (by omega) hlt2
        have hlt : attempt < cfg.max_attempts := by omega
        simp only [retryGo, hop, hre, if_true, hlt]
        apply ih (attempt + 1)
        · omega
        · omega
        · simp; omega
        · omega
        · exact h5
        · exact herr
        · exact hbad
        · intro j hj1 hj2
          exact hprev j (by omega) hj2

lemma retryGo_all_fail {α : Type} (op : Nat → Except PyExc α) (cfg : RetryConfig)
    (e : PyExc) :
    ∀ (fuel attempt : Nat) (delay : ℚ) (sleeps : List ℚ) (last : Option PyExc),
      fuel + attempt = cfg.max_attempts + 1 →
      attempt ≤ cfg.max_attempts →
      (∀ j, attempt ≤ j → j ≤ cfg.max_attempts → ∃ e2, op j = .error e2 ∧ cfg.retriable e2 = true) →
      op cfg.max_attempts = .error e →
      (retryGo op cfg fuel attempt delay sleeps last).outcome = .error e ∧
      (retryGo op cfg fuel attempt delay sleeps last).calls = cfg.max_attempts := by
  intro fuel
  induction fuel with
  | zero =>
      intro attempt delay sleeps last h1 h2 _ _
      omega
  | succ n ih =>
      intro attempt delay sleeps last h1 h2 hall hlast
      obtain ⟨e2, hop, hre⟩ := hall attempt (by omega) h2
      by_cases hlt : attempt < cfg.max_attempts
      · simp only [retryGo, hop, hre, if_true, hlt]
        apply ih (attempt + 1) _ _ _ (by omega) (by omega)
        · intro j hj1 hj2
          exact hall j (by omega) hj2
        · exact hlast
      · have heq : attempt = cfg.max_attempts := by omega
        have he2 : e2 = e := by
          rw [heq] at hop
          rw [hop] at hlast
          exact (Except.error.injEq _ _).mp hlast.symm |>.symm
        subst he2
        have hfa : n = 0 := by omega
        subst hfa
        simp only [retryGo, hop, hre, if_true, hlt, if_false, Option.getD_some]
        exact ⟨by trivial, by omega⟩

/-- C5: in `retry_with_backoff`, the k-th sleep (0-indexed here) equals
`delaySeq cfg k`, i.e. `d 1 = initial_delay` and
`d (k+1) = min (d k * backoff_factor) max_delay`; and a sleep occurs after
every retriable failure except the failure on the final allowed attempt:
there is exactly one sleep per invocation except the last one, and every
invocation before the last raised a retriable exception. -/
theorem retry_backoff_delay_schedule {α : Type} (op : Nat → Except PyExc α)
    (cfg : RetryConfig) :
    (retry_with_backoff op cfg).sleeps
        = (List.range (retry_with_backoff op cfg).sleeps.length).map (delaySeq cfg)
    ∧ (retry_with_backoff op cfg).sleeps.length = (retry_with_backoff op cfg).calls - 1
    ∧ (∀ j, 1 ≤ j → j < (retry_with_backoff op cfg).calls →
        ∃ e, op j = .error e ∧ cfg.retriable e = true) :=
  retry_schedule op cfg

/-- Concrete run exercising `retry_backoff_delay_schedule`: an operation
that always fails with a retriable connection error under a 3-attempt
config sleeps according to the schedule. -/
theorem retry_backoff_delay_schedule_witness :
    (retry_with_backoff (fun _ => (.error .connectionFailure : Except PyExc Nat))
        ⟨3, 1, 2, 60, isRetriableDefault⟩).sleeps
      = (List.range 2).map (delaySeq ⟨3, 1, 2, 60, isRetriableDefault⟩) :=
  (retry_backoff_delay_schedule
    (fun _ => (.error .connectionFailure : Except PyExc Nat))
    ⟨3, 1, 2, 60, isRetriableDefault⟩).1

/-- C6: `retry_with_backoff` invokes the operation at most `max_attempts`
times; it returns the operation value on the first successful invocation
(all earlier ones having raised retriable errors), and if every invocation
raises a retriable exception it re-raises the error of the last
(`max_attempts`-th) invocation. -/
theorem retry_contract {α : Type} (op : Nat → Except PyExc α) (cfg : RetryConfig)
    (hv : cfg.valid) :
    (retry_with_backoff op cfg).calls ≤ cfg.max_attempts
    ∧ (∀ (a : Nat) (v : α), 1 ≤ a → a ≤ cfg.max_attempts → op a = .ok v →
        (∀ j, 1 ≤ j → j < a → ∃ e, op j = .error e ∧ cfg.retriable e = true) →
        (retry_with_backoff op cfg).outcome = .ok v
          ∧ (retry_with_backoff op cfg).calls = a)
    ∧ ((∀ j, 1 ≤ j → j ≤ cfg.max_attempts →
          ∃ e, op j = .error e ∧ cfg.retriable e = true) →
        ∀ e, op cfg.max_attempts = .error e →
        (retry_with_backoff op cfg).outcome = .error e
          ∧ (retry_with_backoff op cfg).calls = cfg.max_attempts) := by
  obtain ⟨hmax, -, -, -⟩ := hv
  refine ⟨?_, ?_, ?_⟩
  · exact retryGo_calls_le op cfg cfg.max_attempts 1 cfg.initial_delay [] none
      (by omega) (by omega)
  · intro a v ha1 ha2 hok hprev
    have h := retryGo_first_ok op cfg a v cfg.max_attempts 1 cfg.initial_delay [] none
      (by omega) hmax (by simp) ha1 ha2 hok (fun j hj1 hj2 => hprev j hj1 hj2)
    exact ⟨h.1, h.2.1⟩
  · intro hall e hlast
    exact retryGo_all_fail op cfg e cfg.max_attempts 1 cfg.initial_delay [] none
      (by omega) hmax (fun j hj1 hj2 => hall j hj1 hj2) hlast

/-- Concrete run exercising `retry_contract`: an operation failing with a
retriable timeout on attempt 1 and succeeding on attempt 2 returns 42
after exactly 2 invocations. -/
theorem retry_contract_witness :
    (retry_with_backoff (fun n => if n = 1
        then (.error .timeoutError : Except PyExc Nat) else .ok 42)
      ⟨3, 1, 2, 60, isRetriableDefault⟩).outcome = .ok 42
    ∧ (retry_with_backoff (fun n => if n = 1
        then (.error .timeoutError : Except PyExc Nat) else .ok 42)
      ⟨3, 1, 2, 60, isRetriableDefault⟩).calls = 2 :=
  (retry_contract
    (fun n => if n = 1 then (.error .timeoutError : Except PyExc Nat) else .ok 42)
    ⟨3, 1, 2, 60, isRetriableDefault⟩
    ⟨by decide, by decide, by decide, by decide⟩).2.1 2 42
    (by decide) (by decide) rfl
    (by
      intro j hj1 hj2
      have hj : j = 1 := by omega
      subst hj
      exact ⟨.timeoutError, rfl, rfl⟩)

/-- C7: a non-retriable exception raised on attempt `a` (all previous
attempts having failed retriably) is re-raised immediately: the run stops
after exactly `a` invocations with no sleep after the non-retriable
failure; and under `DEFAULT_RETRIABLE_EXCEPTIONS` security violations and
SQL parse errors are never retried while connection failures, timeouts
and OS-level network errors are. -/
theorem retry_nonretriable_immediate {α : Type} (op : Nat → Except PyExc α)
    (cfg : RetryConfig) :
    (∀ (a : Nat) (e : PyExc), 1 ≤ a → a ≤ cfg.max_attempts →
      (∀ j, 1 ≤ j → j < a → ∃ e2, op j = .error e2 ∧ cfg.retriable e2 = true) →
      op a = .error e → cfg.retriable e = false →
      (retry_with_backoff op cfg).outcome = .error e
        ∧ (retry_with_backoff op cfg).calls = a
        ∧ (retry_with_backoff op cfg).sleeps.length = a - 1)
    ∧ (∀ m, isRetriableDefault (.securityViolation m) = false
        ∧ isRetriableDefault (.sqlParseError m) = false)
    ∧ (isRetriableDefault .connectionDoesNotExist = true
        ∧ isRetriableDefault .connectionFailure = true
        ∧ isRetriableDefault .postgresConnection = true
        ∧ isRetriableDefault .tooManyConnections = true
        ∧ isRetriableDefault .timeoutError = true
        ∧ isRetriableDefault .osError = true) := by
  refine ⟨?_, fun m => ⟨rfl, rfl⟩, ⟨rfl, rfl, rfl, rfl, rfl, rfl⟩⟩
  intro a e ha1 ha2 hprev herr hbad
  exact retryGo_first_bad op cfg a e cfg.max_attempts 1 cfg.initial_delay [] none
    (by omega) (by omega) (by simp) ha1 ha2 herr hbad
    (fun j hj1 hj2 => hprev j hj1 hj2)

/-- Concrete run exercising `retry_nonretriable_immediate`: a security
violation on the first attempt aborts at once, with one invocation and no
sleeps, under a 3-attempt default-retriable config. -/
theorem retry_nonretriable_immediate_witness :
    (retry_with_backoff (fun _ =>
        (.error (.securityViolation "blocked") : Except PyExc Nat))
      ⟨3, 1, 2, 60, isRetriableDefault⟩).outcome
        = .error (.securityViolation "blocked")
    ∧ (retry_with_backoff (fun _ =>
        (.error (.securityViolation "blocked") : Except PyExc Nat))
      ⟨3, 1, 2, 60, isRetriableDefault⟩).calls = 1
    ∧ (retry_with_backoff (fun _ =>
        (.error (.securityViolation "blocked") : Except PyExc Nat))
      ⟨3, 1, 2, 60, isRetriableDefault⟩).sleeps.length = 1 - 1 :=
  (retry_nonretriable_immediate
    (fun _ => (.error (.securityViolation "blocked") : Except PyExc Nat))
    ⟨3, 1, 2, 60, isRetriableDefault⟩).1 1 (.securityViolation "blocked")
    (by decide) (by decide) (fun j hj1 hj2 => by omega) rfl rfl

/-- Embedding of a Python string as its list of characters, used for the
configuration parsing of settings.py where whitespace stripping and
comma splitting are character-level operations. -/
abbrev PyStr := List Char

/-- Python `str.strip()`: remove whitespace characters from both ends. -/
def pyStrip (s : PyStr) : PyStr :=
  ((s.dropWhile Char.isWhitespace).reverse.dropWhile Char.isWhitespace).reverse

/-- A `str | list[str]` duck-typed configuration value, as accepted by
the `blocked_tables`, `blocked_columns` and `blocked_functions` fields of
`SecurityConfig` in settings.py. -/
inductive StrOrList where
  | str (s : PyStr)
  | list (l : List PyStr)

/-- The pydantic before-mode validators `parse_blocked_tables`,
`parse_blocked_columns`, `parse_blocked_functions` of `SecurityConfig`
(settings.py lines 122-144): a string input is split on commas, every
part stripped, and empty parts dropped
(`[t.strip() for t in v.split(",") if t.strip()]`); a list input is
returned unchanged (`return v`). -/
def SecurityConfig.parse_blocked : StrOrList → List PyStr
  | .str s => ((s.splitOn ',').map pyStrip).filter (fun t => !t.isEmpty)
  | .list l => l

lemma dropWhile_self_idem {α : Type} (p : α → Bool) (l : List α) :
    (l.dropWhile p).dropWhile p = l.dropWhile p := by
  induction l with
  | nil => rfl
  | cons a t ih =>
      by_cases h : p a
      · simp [List.dropWhile_cons, h, ih]
      · simp [List.dropWhile_cons, h]

lemma dropWhile_eq_self_of_isPrefix {α : Type} (p : α → Bool) {l pr : List α}
    (h : l.dropWhile p = l) (hpr : pr <+: l) : pr.dropWhile p = pr := by
  cases pr with
  | nil => rfl
  | cons a t =>
      obtain ⟨r, hr⟩ := hpr
      have ha : p a = false := by
        by_contra hcon
        have ha' : p a = true := by
          cases hpa : p a
          · exact absurd hpa hcon
          · rfl
        rw [← hr] at h
        simp only [List.cons_append] at h
        rw [List.dropWhile_cons] at h
        simp only [ha', if_true] at h
        have hlen := congrArg List.length h
        have hle := (@List.dropWhile_suffix _ (t ++ r) p).sublist.length_le
        simp only [List.length_append, List.length_cons] at hlen hle
        omega
      simp [List.dropWhile_cons, ha]

lemma pyStrip_idem (l : PyStr) : pyStrip (pyStrip l) = pyStrip l := by
  unfold pyStrip
  set ws := Char.isWhitespace with hws
  set m := l.dropWhile ws with hm
  have hmself : m.dropWhile ws = m := by
    rw [hm]
    exact dropWhile_self_idem ws l
  set x := (m.reverse.dropWhile ws).reverse with hx
  have hxrev : x.reverse = m.reverse.dropWhile ws := by
    rw [hx, List.reverse_reverse]
  have hxpre : x <+: m := by
    rw [← List.reverse_suffix, hxrev]
    exact List.dropWhile_suffix ws
  have h1 : x.dropWhile ws = x :=
    dropWhile_eq_self_of_isPrefix ws hmself hxpre
  have h2 : x.reverse.dropWhile ws = x.reverse := by
    rw [hxrev]
    exact dropWhile_self_idem ws m.reverse
  rw [h1, h2, List.reverse_reverse]

/-- C9 counterexample: a list-typed input is stored as provided, so an
entry with surrounding whitespace is not stripped by configuration
loading, contradicting the claim that every accepted input form yields a
whitespace-stripped collection. -/
theorem parse_blocked_list_not_stripped :
    SecurityConfig.parse_blocked (.list [" users ".toList]) = [" users ".toList]
    ∧ pyStrip (" users ".toList) ≠ " users ".toList := by
  exact ⟨rfl, by decide⟩

/-- C9 (amended): for a comma-separated string input, configuration
loading produces a collection of whitespace-stripped, non-empty name
strings; a list input is stored exactly as provided, with no further
normalization.  (The parse runs once, in the pydantic before-mode field
validator at construction time.) -/
theorem parse_blocked_normalization :
    (∀ (s : PyStr) (x : PyStr), x ∈ SecurityConfig.parse_blocked (.str s) →
        pyStrip x = x ∧ x ≠ [])
    ∧ (∀ (l : List PyStr), SecurityConfig.parse_blocked (.list l) = l) := by
  constructor
  · intro s x hx
    unfold SecurityConfig.parse_blocked at hx
    rw [List.mem_filter] at hx
    obtain ⟨hmem, hne⟩ := hx
    rw [List.mem_map] at hmem
    obtain ⟨t, -, ht⟩ := hmem
    constructor
    · rw [← ht]
      exact pyStrip_idem t
    · intro hempty
      rw [hempty] at hne
      simp at hne
  · intro l
    rfl

/-- Concrete instance for `parse_blocked_normalization`: the entries
parsed from the string `" users , secrets,  "` are stripped and
non-empty. -/
theorem parse_blocked_normalization_witness :
    pyStrip "users".toList = "users".toList ∧ "users".toList ≠ [] :=
  parse_blocked_normalization.1 " users , secrets,  ".toList "users".toList
    (by decide)

/-- `DatabaseConfig` from settings.py, restricted to the fields the
database-list validation reads (the identifier `name`) plus the basic
connection coordinates. -/
structure DatabaseConfig where
  name : String
  host : String
  port : Nat
  database : String
deriving DecidableEq, Repr

/-- The `validate_databases` field validator of `Settings` (settings.py
lines 253-262): raising `ValueError` is embedded as returning `.error`;
`len(names) != len(set(names))` is embedded through `List.dedup`. -/
def Settings.validate_databases (v : List DatabaseConfig) :
    Except String (List DatabaseConfig) :=
  if v.isEmpty then .error "At least one database must be configured"
  else if (v.map DatabaseConfig.name).dedup.length ≠ (v.map DatabaseConfig.name).length
    then .error "Database names must be unique"
  else .ok v

lemma dedup_length_eq_iff (l : List String) :
    l.dedup.length = l.length ↔ l.Nodup := by
  constructor
  · intro h
    exact List.dedup_eq_self.mp ((List.dedup_sublist l).eq_of_length h)
  · intro h
    rw [List.dedup_eq_self.mpr h]

/-- C10: `Settings` construction fails (raises `ValueError`) exactly when
the database list is empty or two configured databases share a name;
consequently every successfully validated list is returned unchanged,
is non-empty, and has pairwise-distinct database names, so the
name-to-pool mapping built from it is well-defined. -/
theorem settings_database_validation (v : List DatabaseConfig) :
    ((v = [] ∨ ¬(v.map DatabaseConfig.name).Nodup) ↔
      ∃ e, Settings.validate_databases v = .error e)
    ∧ (∀ w, Settings.validate_databases v = .ok w →
        w = v ∧ v ≠ [] ∧ (v.map DatabaseConfig.name).Nodup) := by
  unfold Settings.validate_databases
  split_ifs with h1 h2
  · rw [List.isEmpty_iff] at h1
    constructor
    · exact ⟨fun _ => ⟨_, rfl⟩, fun _ => Or.inl h1⟩
    · intro w hw
      simp at hw
  · constructor
    · constructor
      · intro _
        exact ⟨_, rfl⟩
      · intro _
        right
        intro hn
        exact h2 ((dedup_length_eq_iff _).mpr hn)
    · intro w hw
      simp at hw
  · rw [List.isEmpty_iff] at h1
    rw [not_ne_iff] at h2
    constructor
    · constructor
      · intro h
        rcases h with h | h
        · exact absurd h h1
        · exact absurd ((dedup_length_eq_iff _).mp h2) h
      · intro ⟨e, he⟩
        simp at he
    · intro w hw
      simp at hw
      exact ⟨hw.symm, h1, (dedup_length_eq_iff _).mp h2⟩

/-- Concrete instance for `settings_database_validation`: a two-database
configuration with distinct names validates and its names are pairwise
distinct. -/
theorem settings_database_validation_witness :
    ([⟨"users_db", "localhost", 5432, "users"⟩,
      ⟨"orders_db", "localhost", 5432, "orders"⟩] : List DatabaseConfig) ≠ []
    ∧ (([⟨"users_db", "localhost", 5432, "users"⟩,
        ⟨"orders_db", "localhost", 5432, "orders"⟩] : List DatabaseConfig).map
          DatabaseConfig.name).Nodup := by
  have h := (settings_database_validation
      [⟨"users_db", "localhost", 5432, "users"⟩,
       ⟨"orders_db", "localhost", 5432, "orders"⟩]).2
      [⟨"users_db", "localhost", 5432, "users"⟩,
       ⟨"orders_db", "localhost", 5432, "orders"⟩] (by rfl)
  exact ⟨h.2.1, h.2.2⟩

/-- Modelled from the spec: statement kinds distinguished by the SQL
Validator of spec section 4.1 (the implementation
`pg_mcp/services/sql_validator.py` is not part of the repository; only
its test suite is).  `SELECT` is the only kind allowed in nested
positions; `EXPLAIN` is allowed at the root when configured. -/
inductive StmtKind where
  | select
  | insert
  | update
  | delete
  | drop
  | alter
  | explain
deriving DecidableEq, Repr

/-- The SQL keyword naming each statement kind, as it appears in
`SecurityViolation` messages. -/
def StmtKind.keyword : StmtKind → String
  | .select => "SELECT"
  | .insert => "INSERT"
  | .update => "UPDATE"
  | .delete => "DELETE"
  | .drop => "DROP"
  | .alter => "ALTER"
  | .explain => "EXPLAIN"

/-- Modelled from the spec: a parsed SQL statement node.  Spec section
4.1 inspects, for every statement node of the AST, its statement kind and
the table references, column references and function-call names it
directly contains, and recurses into nested statement nodes (subqueries,
CTE bodies, EXPLAIN bodies), so the embedding keeps exactly that
structure per node. -/
inductive SqlNode where
  | mk (kind : StmtKind) (tables columns funcs : List String)
       (children : List SqlNode)

def SqlNode.kind : SqlNode → StmtKind
  | .mk k _ _ _ _ => k

def SqlNode.tables : SqlNode → List String
  | .mk _ t _ _ _ => t

def SqlNode.columns : SqlNode → List String
  | .mk _ _ c _ _ => c

def SqlNode.funcs : SqlNode → List String
  | .mk _ _ _ f _ => f

def SqlNode.children : SqlNode → List SqlNode
  | .mk _ _ _ _ ch => ch

mutual

/-- All statement nodes of an AST: the node itself and, recursively,
every node of every nested statement. -/
def allNodes : SqlNode → List SqlNode
  | .mk k t c f ch => .mk k t c f ch :: allNodesList ch

/-- All statement nodes of a list of ASTs. -/
def allNodesList : List SqlNode → List SqlNode
  | [] => []
  | x :: xs => allNodes x ++ allNodesList xs

end

/-- Modelled from the spec: the violation classification carried by a
`SecurityViolation` (spec section 3, ValidationVerdict: a classified
violation, kind plus offending identifier or text). -/
inductive Violation where
  | statementKind (kw : String)
  | multipleStatements
  | blockedTable (name : String)
  | blockedColumn (name : String)
  | blockedFunction (name : String)
deriving DecidableEq, Repr

/-- Modelled from the spec: the error message of each violation, naming
the rejected statement keyword or the offending identifier (spec section
7: a rejected query always explains why). -/
def Violation.message : Violation → String
  | .statementKind kw => "Statement type " ++ kw ++ " is not allowed"
  | .multipleStatements => "Multiple statements are not allowed"
  | .blockedTable n => "Access to blocked table " ++ n ++ " is not allowed"
  | .blockedColumn n => "Access to blocked column " ++ n ++ " is not allowed"
  | .blockedFunction n => "Use of blocked function " ++ n ++ " is not allowed"

/-- Modelled from the spec: the validator error taxonomy, `SQLParseError`
for malformed or empty input and `SecurityViolationError` for
policy-forbidden SQL. -/
inductive SqlError where
  | parseError (msg : String)
  | securityViolation (v : Violation)
deriving DecidableEq, Repr

/-- Modelled from the spec: the fields of `SecurityPolicy` that the
validator consumes (blocked tables, blocked columns, blocked functions,
allow-explain flag). -/
structure Policy where
  blocked_tables : List String
  blocked_columns : List String
  blocked_functions : List String
  allow_explain : Bool

/-- Python `str.lower()`, character-wise (the identifiers compared here
are ASCII SQL identifiers). -/
def lowerStr (s : String) : String :=
  ⟨s.data.map Char.toLower⟩

/-- Case-insensitive membership of an identifier in a blocked set (spec
section 4.1: case-fold all identifiers before comparison). -/
def isBlocked (blocked : List String) (x : String) : Bool :=
  blocked.any (fun b => lowerStr b == lowerStr x)

/-- Modelled from the spec: the recursive statement-kind check of spec
section 4.1, applied to every statement node, reporting the first node
whose kind is not `SELECT`. -/
def checkKinds (nodes : List SqlNode) : Option Violation :=
  match nodes.find? (fun n => !(n.kind == StmtKind.select)) with
  | some n => some (.statementKind n.kind.keyword)
  | none => none

/-- Modelled from the spec: walk the full AST collecting every table
reference, column reference and function-call name, and report the first
one matching the corresponding blocked set (spec section 4.1, checks in
the order tables, columns, functions; exactly one violation reported). -/
def checkBlocked (p : Policy) (nodes : List SqlNode) : Option Violation :=
  match (nodes.flatMap SqlNode.tables).find? (isBlocked p.blocked_tables) with
  | some t => some (.blockedTable t)
  | none =>
    match (nodes.flatMap SqlNode.columns).find? (isBlocked p.blocked_columns) with
    | some c => some (.blockedColumn c)
    | none =>
      match (nodes.flatMap SqlNode.funcs).find? (isBlocked p.blocked_functions) with
      | some f => some (.blockedFunction f)
      | none => none

/-- Modelled from the spec: validation of a single parsed statement.  The
root must be a `SELECT`, or an `EXPLAIN` when `allow_explain` is set
(otherwise the rejected statement kind is named); the statement-kind
check then recurses into every nested node, and finally all collected
identifiers are checked against the blocked sets. -/
def validateSingle (p : Policy) (s : SqlNode) : Except SqlError Unit :=
  let kindCheck :=
    match s.kind with
    | .select => checkKinds (allNodes s)
    | .explain =>
        if p.allow_explain then checkKinds (allNodesList s.children)
        else some (.statementKind StmtKind.explain.keyword)
    | k => some (.statementKind k.keyword)
  match kindCheck with
  | some v => .error (.securityViolation v)
  | none =>
    match checkBlocked p (allNodes s) with
    | some v => .error (.securityViolation v)
    | none => .ok ()

/-- Modelled from the spec: `SQLValidator.validate_or_raise` applied to
the parsed form of the input SQL text (the parse step itself is
abstracted: the argument is the list of parsed top-level statements).
Empty input is a `SQLParseError`; more than one top-level statement is a
"multiple statements" `SecurityViolation`; otherwise the single statement
is validated. -/
def SQLValidator.validate_or_raise (p : Policy) (stmts : List SqlNode) :
    Except SqlError Unit :=
  match stmts with
  | [] => .error (.parseError "Empty SQL statement")
  | [s] => validateSingle p s
  | _ => .error (.securityViolation .multipleStatements)

/-- Deep containment of a statement kind in an AST. -/
def containsKind (s : SqlNode) (k : StmtKind) : Bool :=
  (allNodes s).any (fun n => n.kind == k)

/-- An AST all of whose statement nodes are `SELECT` nodes (the parsed
form of a plain SELECT query, subqueries and CTEs included). -/
def pureSelect (s : SqlNode) : Bool :=
  (allNodes s).all (fun n => n.kind == StmtKind.select)

/-- All table references appearing anywhere in an AST. -/
def allTables (s : SqlNode) : List String :=
  (allNodes s).flatMap SqlNode.tables

/-- All column references appearing anywhere in an AST. -/
def allColumns (s : SqlNode) : List String :=
  (allNodes s).flatMap SqlNode.columns

/-- All function-call names appearing anywhere in an AST. -/
def allFuncs (s : SqlNode) : List String :=
  (allNodes s).flatMap SqlNode.funcs

lemma allNodes_eq (s : SqlNode) : allNodes s = s :: allNodesList s.children := by
  cases s
  rfl

lemma self_mem_allNodes (s : SqlNode) : s ∈ allNodes s := by
  rw [allNodes_eq]
  exact List.mem_cons_self _ _

lemma containsKind_of_mem {s n : SqlNode} {k : StmtKind}
    (hn : n ∈ allNodes s) (h : n.kind = k) : containsKind s k = true := by
  rw [containsKind, List.any_eq_true]
  exact ⟨n, hn, by simp [h]⟩

lemma exists_of_containsKind {s : SqlNode} {k : StmtKind}
    (h : containsKind s k = true) : ∃ n ∈ allNodes s, n.kind = k := by
  rw [containsKind, List.any_eq_true] at h
  obtain ⟨n, hn, hk⟩ := h
  exact ⟨n, hn, by simpa using hk⟩

lemma checkKinds_some_of_mem {nodes : List SqlNode} {n : SqlNode}
    (hn : n ∈ nodes) (hk : n.kind ≠ .select) :
    ∃ m, m ∈ nodes ∧ m.kind ≠ StmtKind.select ∧
      checkKinds nodes = some (.statementKind m.kind.keyword) := by
  cases hfind : nodes.find? (fun x => !(x.kind == StmtKind.select)) with
  | none =>
      have hnone := List.find?_eq_none.mp hfind n hn
      simp at hnone
      exact absurd hnone hk
  | some m =>
      have h1 := List.find?_some hfind
      have h2 := List.mem_of_find?_eq_some hfind
      simp at h1
      exact ⟨m, h2, h1, by simp [checkKinds, hfind]⟩

lemma checkKinds_eq_none {nodes : List SqlNode}
    (h : ∀ n ∈ nodes, n.kind = StmtKind.select) : checkKinds nodes = none := by
  rw [checkKinds]
  rw [List.find?_eq_none.mpr]
  intro n hn
  simp [h n hn]

/-- C1: any AST containing, at any depth, a statement node of kind
INSERT, UPDATE, DELETE or DROP is rejected by `validate_or_raise` with a
`SecurityViolation` of kind `statementKind` whose message names the
keyword of an offending (non-SELECT) node of the AST; and when the
offending kind is unique, the named keyword is exactly that kind.  The
check being applied to `allNodes` makes it recursive over every nested
statement node, not only the root. -/
theorem validator_rejects_write_kinds (p : Policy) (s : SqlNode) (k : StmtKind)
    (hk : k ∈ [StmtKind.insert, StmtKind.update, StmtKind.delete, StmtKind.drop])
    (hc : containsKind s k = true) :
    (∃ k2 : StmtKind, k2 ≠ StmtKind.select ∧ containsKind s k2 = true ∧
        SQLValidator.validate_or_raise p [s] =
          .error (.securityViolation (.statementKind k2.keyword)) ∧
        ∃ pre suf, (Violation.statementKind k2.keyword).message
          = pre ++ k2.keyword ++ suf)
    ∧ ((∀ n ∈ allNodes s, n.kind ≠ StmtKind.select → n.kind = k) →
        SQLValidator.validate_or_raise p [s] =
          .error (.securityViolation (.statementKind k.keyword))) := by
  have hksel : k ≠ StmtKind.select ∧ k ≠ StmtKind.explain := by
    simp at hk
    rcases hk with rfl | rfl | rfl | rfl <;> exact ⟨by decide, by decide⟩
  obtain ⟨n0, hn0, hn0k⟩ := exists_of_containsKind hc
  have hval : SQLValidator.validate_or_raise p [s] = validateSingle p s := rfl
  constructor
  · -- existence of a named offending kind
    cases hsk : s.kind with
    | select =>
        obtain ⟨m, hm, hmk, hck⟩ :=
          checkKinds_some_of_mem hn0 (hn0k ▸ hksel.1)
        refine ⟨m.kind, hmk, containsKind_of_mem hm rfl, ?_,
          "Statement type ", " is not allowed", rfl⟩
        rw [hval]
        unfold validateSingle
        rw [hsk, hck]
    | explain =>
        by_cases hex : p.allow_explain
        · have hmem : n0 ∈ allNodesList s.children := by
            rw [allNodes_eq] at hn0
            rcases List.mem_cons.mp hn0 with heq | hmem
            · subst heq
              rw [hsk] at hn0k
              exact absurd hn0k.symm hksel.2
            · exact hmem
          obtain ⟨m, hm, hmk, hck⟩ :=
            checkKinds_some_of_mem hmem (hn0k ▸ hksel.1)
          have hmall : m ∈ allNodes s := by
            rw [allNodes_eq]
            exact List.mem_cons_of_mem _ hm
          refine ⟨m.kind, hmk, containsKind_of_mem hmall rfl, ?_,
            "Statement type ", " is not allowed", rfl⟩
          rw [hval]
          unfold validateSingle
          rw [hsk]
          simp only [hex, if_true, hck]
        · refine ⟨StmtKind.explain, by decide,
            containsKind_of_mem (self_mem_allNodes s) hsk, ?_,
            "Statement type ", " is not allowed", rfl⟩
          rw [hval]
          unfold validateSingle
          rw [hsk]
          simp only [hex, if_false, Bool.false_eq_true]
    | insert =>
        refine ⟨StmtKind.insert, by decide,
          containsKind_of_mem (self_mem_allNodes s) hsk, ?_,
          "Statement type ", " is not allowed", rfl⟩
        rw [hval]
        unfold validateSingle
        rw [hsk]
    | update =>
        refine ⟨StmtKind.update, by decide,
          containsKind_of_mem (self_mem_allNodes s) hsk, ?_,
          "Statement type ", " is not allowed", rfl⟩
        rw [hval]
        unfold validateSingle
        rw [hsk]
    | delete =>
        refine ⟨StmtKind.delete, by decide,
          containsKind_of_mem (self_mem_allNodes s) hsk, ?_,
          "Statement type ", " is not allowed", rfl⟩
        rw [hval]
        unfold validateSingle
        rw [hsk]
    | drop =>
        refine ⟨StmtKind.drop, by decide,
          containsKind_of_mem (self_mem_allNodes s) hsk, ?_,
          "Statement type ", " is not allowed", rfl⟩
        rw [hval]
        unfold validateSingle
        rw [hsk]
    | alter =>
        refine ⟨StmtKind.alter, by decide,
          containsKind_of_mem (self_mem_allNodes s) hsk, ?_,
          "Statement type ", " is not allowed", rfl⟩
        rw [hval]
        unfold validateSingle
        rw [hsk]
  · -- uniqueness: the named keyword is that of k
    intro huniq
    cases hsk : s.kind with
    | select =>
        obtain ⟨m, hm, hmk, hck⟩ :=
          checkKinds_some_of_mem hn0 (hn0k ▸ hksel.1)
        have : m.kind = k := huniq m hm hmk
        rw [hval]
        unfold validateSingle
        rw [hsk, hck, this]
    | explain =>
        have : StmtKind.explain = k := by
          have hroot := huniq s (self_mem_allNodes s)
          rw [hsk] at hroot
          exact hroot (by decide)
        exact absurd this.symm hksel.2
    | insert =>
        have hroot := huniq s (self_mem_allNodes s)
        rw [hsk] at hroot
        have hik : StmtKind.insert = k := hroot (by decide)
        rw [hval]
        unfold validateSingle
        rw [hsk, ← hik]
    | update =>
        have hroot := huniq s (self_mem_allNodes s)
        rw [hsk] at hroot
        have hik : StmtKind.update = k := hroot (by decide)
        rw [hval]
        unfold validateSingle
        rw [hsk, ← hik]
    | delete =>
        have hroot := huniq s (self_mem_allNodes s)
        rw [hsk] at hroot
        have hik : StmtKind.delete = k := hroot (by decide)
        rw [hval]
        unfold validateSingle
        rw [hsk, ← hik]
    | drop =>
        have hroot := huniq s (self_mem_allNodes s)
        rw [hsk] at hroot
        have hik : StmtKind.drop = k := hroot (by decide)
        rw [hval]
        unfold validateSingle
        rw [hsk, ← hik]
    | alter =>
        have hroot := huniq s (self_mem_allNodes s)
        rw [hsk] at hroot
        have hik : StmtKind.alter = k := hroot (by decide)
        rw [hval]
        unfold validateSingle
        rw [hsk, ← hik]

/-- Concrete instance for `validator_rejects_write_kinds`: a DELETE
nested in a subquery position of a SELECT is rejected with a violation
naming DELETE. -/
theorem validator_rejects_write_kinds_witness :
    SQLValidator.validate_or_raise ⟨[], [], [], false⟩
        [.mk .select [] [] [] [.mk .delete ["users"] [] [] []]] =
      .error (.securityViolation (.statementKind "DELETE")) :=
  (validator_rejects_write_kinds ⟨[], [], [], false⟩
      (.mk .select [] [] [] [.mk .delete ["users"] [] [] []]) .delete
      (by decide) (by decide)).2 (by decide)

/-- C2: for a statement all of whose nodes are SELECT nodes, validation
raises if and only if some table, column or function referenced anywhere
in the statement matches an entry of the corresponding blocked set under
case-insensitive comparison; when it raises, the violation carries (and
its message names) exactly an offending referenced identifier; and the
parsed form of `SELECT id, name FROM users WHERE active = true` passes
under an empty blocklist. -/
theorem validator_blocklist_iff (p : Policy) (s : SqlNode)
    (hsel : pureSelect s = true) :
    ((∃ err, SQLValidator.validate_or_raise p [s] = .error err) ↔
      ((∃ t ∈ allTables s, isBlocked p.blocked_tables t = true)
        ∨ (∃ c ∈ allColumns s, isBlocked p.blocked_columns c = true)
        ∨ (∃ f ∈ allFuncs s, isBlocked p.blocked_functions f = true)))
    ∧ (∀ v, SQLValidator.validate_or_raise p [s] = .error (.securityViolation v) →
        ∃ name,
          ((v = .blockedTable name ∧ name ∈ allTables s
              ∧ isBlocked p.blocked_tables name = true)
            ∨ (v = .blockedColumn name ∧ name ∈ allColumns s
              ∧ isBlocked p.blocked_columns name = true)
            ∨ (v = .blockedFunction name ∧ name ∈ allFuncs s
              ∧ isBlocked p.blocked_functions name = true))
          ∧ ∃ pre suf, v.message = pre ++ name ++ suf)
    ∧ SQLValidator.validate_or_raise ⟨[], [], [], false⟩
        [.mk .select ["users"] ["id", "name", "active"] [] []] = .ok () := by
  have hpure : ∀ n ∈ allNodes s, n.kind = StmtKind.select := by
    intro n hn
    have := List.all_eq_true.mp hsel n hn
    simpa using this
  have hroot : s.kind = StmtKind.select := hpure s (self_mem_allNodes s)
  have hck : checkKinds (allNodes s) = none := checkKinds_eq_none hpure
  have hvs : SQLValidator.validate_or_raise p [s] =
      (match checkBlocked p (allNodes s) with
        | some v => .error (.securityViolation v)
        | none => .ok ()) := by
    show validateSingle p s = _
    unfold validateSingle
    rw [hroot, hck]
  refine ⟨?_, ?_, by rfl⟩
  · constructor
    · rintro ⟨err, herr⟩
      rw [hvs] at herr
      cases hcb : checkBlocked p (allNodes s) with
      | none => rw [hcb] at herr; simp at herr
      | some v =>
          unfold checkBlocked at hcb
          cases hf1 : ((allNodes s).flatMap SqlNode.tables).find?
              (isBlocked p.blocked_tables) with
          | some t =>
              exact Or.inl ⟨t, List.mem_of_find?_eq_some hf1,
                List.find?_some hf1⟩
          | none =>
              rw [hf1] at hcb
              cases hf2 : ((allNodes s).flatMap SqlNode.columns).find?
                  (isBlocked p.blocked_columns) with
              | some c =>
                  exact Or.inr (Or.inl ⟨c, List.mem_of_find?_eq_some hf2,
                    List.find?_some hf2⟩)
              | none =>
                  rw [hf2] at hcb
                  cases hf3 : ((allNodes s).flatMap SqlNode.funcs).find?
                      (isBlocked p.blocked_functions) with
                  | some f =>
                      exact Or.inr (Or.inr ⟨f, List.mem_of_find?_eq_some hf3,
                        List.find?_some hf3⟩)
                  | none =>
                      rw [hf3] at hcb
                      simp at hcb
    · intro h
      rw [hvs]
      cases hcb : checkBlocked p (allNodes s) with
      | some v => exact ⟨.securityViolation v, rfl⟩
      | none =>
          exfalso
          unfold checkBlocked at hcb
          cases hf1 : ((allNodes s).flatMap SqlNode.tables).find?
              (isBlocked p.blocked_tables) with
          | some t => rw [hf1] at hcb; simp at hcb
          | none =>
              rw [hf1] at hcb
              cases hf2 : ((allNodes s).flatMap SqlNode.columns).find?
                  (isBlocked p.blocked_columns) with
              | some c => rw [hf2] at hcb; simp at hcb
              | none =>
                  rw [hf2] at hcb
                  cases hf3 : ((allNodes s).flatMap SqlNode.funcs).find?
                      (isBlocked p.blocked_functions) with
                  | some f => rw [hf3] at hcb; simp at hcb
                  | none =>
                      rcases h with ⟨t, ht, hbt⟩ | ⟨c, hc, hbc⟩ | ⟨f, hf, hbf⟩
                      · have := List.find?_eq_none.mp hf1 t ht
                        rw [hbt] at this
                        exact this rfl
                      · have := List.find?_eq_none.mp hf2 c hc
                        rw [hbc] at this
                        exact this rfl
                      · have := List.find?_eq_none.mp hf3 f hf
                        rw [hbf] at this
                        exact this rfl
  · intro v hv
    rw [hvs] at hv
    cases hcb : checkBlocked p (allNodes s) with
    | none => rw [hcb] at hv; simp at hv
    | some v2 =>
        rw [hcb] at hv
        simp at hv
        subst hv
        unfold checkBlocked at hcb
        cases hf1 : ((allNodes s).flatMap SqlNode.tables).find?
            (isBlocked p.blocked_tables) with
        | some t =>
            rw [hf1] at hcb
            simp at hcb
            refine ⟨t, Or.inl ⟨hcb.symm, List.mem_of_find?_eq_some hf1,
              List.find?_some hf1⟩, ?_⟩
            rw [← hcb]
            exact ⟨"Access to blocked table ", " is not allowed", rfl⟩
        | none =>
            rw [hf1] at hcb
            cases hf2 : ((allNodes s).flatMap SqlNode.columns).find?
                (isBlocked p.blocked_columns) with
            | some c =>
                rw [hf2] at hcb
                simp at hcb
                refine ⟨c, Or.inr (Or.inl ⟨hcb.symm,
                  List.mem_of_find?_eq_some hf2, List.find?_some hf2⟩), ?_⟩
                rw [← hcb]
                exact ⟨"Access to blocked column ", " is not allowed", rfl⟩
            | none =>
                rw [hf2] at hcb
                cases hf3 : ((allNodes s).flatMap SqlNode.funcs).find?
                    (isBlocked p.blocked_functions) with
                | some f =>
                    rw [hf3] at hcb
                    simp at hcb
                    refine ⟨f, Or.inr (Or.inr ⟨hcb.symm,
                      List.mem_of_find?_eq_some hf3, List.find?_some hf3⟩), ?_⟩
                    rw [← hcb]
                    exact ⟨"Use of blocked function ", " is not allowed", rfl⟩
                | none =>
                    rw [hf3] at hcb
                    simp at hcb

/-- Concrete instance for `validator_blocklist_iff`: with `secrets` in the
blocked-table set, the parsed form of `SELECT * FROM Secrets` raises
(case-insensitively). -/
theorem validator_blocklist_iff_witness :
    ∃ err, SQLValidator.validate_or_raise ⟨["secrets"], [], [], false⟩
        [.mk .select ["Secrets"] [] [] []] = .error err :=
  (validator_blocklist_iff ⟨["secrets"], [], [], false⟩
      (.mk .select ["Secrets"] [] [] []) (by decide)).1.mpr
    (Or.inl ⟨"Secrets", by decide, by decide⟩)

/-- Modelled from the spec: a Python `datetime.date` value. -/
structure PyDate where
  year : Nat
  month : Nat
  day : Nat
deriving DecidableEq, Repr

/-- Modelled from the spec: a Python `datetime.datetime` value. -/
structure PyDateTime where
  date : PyDate
  hour : Nat
  minute : Nat
  second : Nat
deriving DecidableEq, Repr

/-- Zero-padding to two digits, as in ISO-8601 month/day/time fields. -/
def pad2 (n : Nat) : String :=
  if n < 10 then "0" ++ toString n else toString n

/-- Zero-padding to four digits, as in ISO-8601 year fields. -/
def pad4 (n : Nat) : String :=
  if n < 10 then "000" ++ toString n
  else if n < 100 then "00" ++ toString n
  else if n < 1000 then "0" ++ toString n
  else toString n

/-- ISO-8601 date text, `YYYY-MM-DD` (Python `date.isoformat()`). -/
def isoDate (d : PyDate) : String :=
  pad4 d.year ++ "-" ++ pad2 d.month ++ "-" ++ pad2 d.day

/-- ISO-8601 datetime text, `YYYY-MM-DDTHH:MM:SS` (Python
`datetime.isoformat()`). -/
def isoDateTime (dt : PyDateTime) : String :=
  isoDate dt.date ++ "T" ++ pad2 dt.hour ++ ":" ++ pad2 dt.minute
    ++ ":" ++ pad2 dt.second

/-- The sixteen lowercase hexadecimal digit characters. -/
def hexAlphabet : List Char :=
  "0123456789abcdef".data

/-- The hexadecimal digit character for a value below 16. -/
def hexDigitChar (k : Nat) : Char :=
  hexAlphabet.getD k '0'

/-- The `len` hexadecimal digits of `n`, most significant first. -/
def hexChars (n len : Nat) : List Char :=
  (List.range len).map (fun i => hexDigitChar (n / 16 ^ (len - 1 - i) % 16))

/-- Canonical hyphenated UUID text, `xxxxxxxx-xxxx-xxxx-xxxx-xxxxxxxxxxxx`
(Python `str(uuid.UUID(...))`), of the 128-bit value `n`. -/
def uuidCanonical (n : Nat) : String :=
  ⟨hexChars (n / 16 ^ 24) 8 ++ '-' ::
    (hexChars (n / 16 ^ 20 % 16 ^ 4) 4 ++ '-' ::
      (hexChars (n / 16 ^ 16 % 16 ^ 4) 4 ++ '-' ::
        (hexChars (n / 16 ^ 12 % 16 ^ 4) 4 ++ '-' ::
          hexChars (n % 16 ^ 12) 12)))⟩

/-- Hexadecimal text of a byte sequence (Python `bytes.hex()`), two
digits per byte. -/
def bytesHex (bs : List Nat) : String :=
  ⟨bs.flatMap (fun b => [hexDigitChar (b / 16 % 16), hexDigitChar (b % 16)])⟩

/-- Modelled from the spec: the universe of Python values the SQL
Executor receives from the database driver and normalizes for transport
(spec section 4.3: timestamps/dates, arbitrary-precision decimals,
binary blobs, UUID-like values, nested lists/mappings, plain scalars).
Decimals and floats are embedded as rationals; a UUID is its 128-bit
value. -/
inductive PyValue where
  | pyNone
  | pyBool (b : Bool)
  | pyInt (n : Int)
  | pyFloat (q : ℚ)
  | pyStr (s : String)
  | pyDatetime (dt : PyDateTime)
  | pyDate (d : PyDate)
  | pyDecimal (q : ℚ)
  | pyUUID (n : Nat)
  | pyBytes (bs : List Nat)
  | pyList (xs : List PyValue)
  | pyDict (kvs : List (String × PyValue))

mutual

/-- Modelled from the spec: the value-normalization function of the SQL
Executor (spec section 4.3): timestamps/dates become ISO-8601 text,
decimals become floating-point, binary blobs become hexadecimal text,
UUID-like values become canonical text, and nested lists/mappings are
passed through structurally unchanged with their leaf values normalized
recursively; plain scalars are returned unchanged. -/
def serializeValue : PyValue → PyValue
  | .pyDatetime dt => .pyStr (isoDateTime dt)
  | .pyDate d => .pyStr (isoDate d)
  | .pyDecimal q => .pyFloat q
  | .pyUUID n => .pyStr (uuidCanonical n)
  | .pyBytes bs => .pyStr (bytesHex bs)
  | .pyList xs => .pyList (serializeList xs)
  | .pyDict kvs => .pyDict (serializeKVs kvs)
  | .pyNone => .pyNone
  | .pyBool b => .pyBool b
  | .pyInt n => .pyInt n
  | .pyFloat q => .pyFloat q
  | .pyStr s => .pyStr s

/-- Normalization mapped over the elements of a list value. -/
def serializeList : List PyValue → List PyValue
  | [] => []
  | x :: xs => serializeValue x :: serializeList xs

/-- Normalization mapped over the values of a mapping, keys unchanged. -/
def serializeKVs : List (String × PyValue) → List (String × PyValue)
  | [] => []
  | (k, v) :: rest => (k, serializeValue v) :: serializeKVs rest

end

lemma serializeList_eq_map (xs : List PyValue) :
    serializeList xs = xs.map serializeValue := by
  induction xs with
  | nil => rfl
  | cons x t ih => simp [serializeList, ih]

lemma serializeKVs_eq_map (kvs : List (String × PyValue)) :
    serializeKVs kvs = kvs.map (fun p => (p.1, serializeValue p.2)) := by
  induction kvs with
  | nil => rfl
  | cons p t ih =>
      cases p
      simp [serializeKVs, ih]

lemma hexDigitChar_mem (k : Nat) : hexDigitChar k ∈ hexAlphabet := by
  unfold hexDigitChar
  rw [List.getD_eq_getElem?_getD]
  cases h : hexAlphabet[k]? with
  | none => decide
  | some c =>
      simp only [Option.getD_some]
      exact List.getElem?_mem h

/-- C8: the executor value normalization sends every datetime and date to
an ISO-8601 string beginning with its date component, every decimal to
the equal floating-point number (in particular `Decimal("99.99")` to
`99.99`), every UUID to its canonical 36-character hyphenated text
(groups of 8-4-4-4-12 hexadecimal digits), every bytes value to
hexadecimal text, and normalizes lists and mappings recursively while
preserving their structure, keys and length. -/
theorem executor_value_normalization :
    (∀ dt : PyDateTime, serializeValue (.pyDatetime dt) = .pyStr (isoDateTime dt)
      ∧ ∃ timePart, isoDateTime dt = isoDate dt.date ++ timePart)
    ∧ (∀ d : PyDate, serializeValue (.pyDate d) = .pyStr (isoDate d))
    ∧ (∀ q : ℚ, serializeValue (.pyDecimal q) = .pyFloat q)
    ∧ serializeValue (.pyDecimal (9999 / 100)) = .pyFloat (9999 / 100)
    ∧ (∀ n : Nat, serializeValue (.pyUUID n) = .pyStr (uuidCanonical n)
      ∧ (uuidCanonical n).length = 36
      ∧ ∃ g1 g2 g3 g4 g5 : List Char,
          g1.length = 8 ∧ g2.length = 4 ∧ g3.length = 4 ∧ g4.length = 4
          ∧ g5.length = 12
          ∧ (uuidCanonical n).data
              = g1 ++ '-' :: (g2 ++ '-' :: (g3 ++ '-' :: (g4 ++ '-' :: g5))))
    ∧ (∀ bs : List Nat, serializeValue (.pyBytes bs) = .pyStr (bytesHex bs)
      ∧ ∀ c ∈ (bytesHex bs).data, c ∈ hexAlphabet)
    ∧ (∀ xs : List PyValue,
        serializeValue (.pyList xs) = .pyList (xs.map serializeValue)
      ∧ (xs.map serializeValue).length = xs.length)
    ∧ (∀ kvs : List (String × PyValue),
        serializeValue (.pyDict kvs)
            = .pyDict (kvs.map (fun p => (p.1, serializeValue p.2)))
      ∧ (kvs.map (fun p => (p.1, serializeValue p.2))).map Prod.fst
            = kvs.map Prod.fst
      ∧ (kvs.map (fun p => (p.1, serializeValue p.2))).length = kvs.length) := by
  refine ⟨?_, fun d => rfl, fun q => rfl, rfl, ?_, ?_, ?_, ?_⟩
  · intro dt
    exact ⟨rfl, "T" ++ pad2 dt.hour ++ ":" ++ pad2 dt.minute ++ ":" ++ pad2 dt.second,
      by simp [isoDateTime, String.append_assoc]⟩
  · intro n
    refine ⟨rfl, by simp [uuidCanonical, String.length, hexChars], ?_⟩
    exact ⟨hexChars (n / 16 ^ 24) 8, hexChars (n / 16 ^ 20 % 16 ^ 4) 4,
      hexChars (n / 16 ^ 16 % 16 ^ 4) 4, hexChars (n / 16 ^ 12 % 16 ^ 4) 4,
      hexChars (n % 16 ^ 12) 12,
      by simp [hexChars], by simp [hexChars], by simp [hexChars],
      by simp [hexChars], by simp [hexChars], rfl⟩
  · intro bs
    refine ⟨rfl, ?_⟩
    intro c hc
    simp only [bytesHex, List.mem_flatMap] at hc
    obtain ⟨b, -, hb⟩ := hc
    simp only [List.mem_cons, List.not_mem_nil, or_false] at hb
    rcases hb with h | h
    · exact h ▸ hexDigitChar_mem _
    · exact h ▸ hexDigitChar_mem _
  · intro xs
    constructor
    · show PyValue.pyList (serializeList xs) = _
      rw [serializeList_eq_map]
    · simp
  · intro kvs
    refine ⟨?_, by simp, by simp⟩
    show PyValue.pyDict (serializeKVs kvs) = _
    rw [serializeKVs_eq_map]

/-- Concrete instance for `executor_value_normalization`: the test UUID
serializes to its canonical 36-character text, and every character of a
concrete bytes serialization is a hexadecimal digit. -/
theorem executor_value_normalization_witness :
    serializeValue (.pyUUID 0x12345678123456781234567812345678)
        = .pyStr (uuidCanonical 0x12345678123456781234567812345678)
    ∧ (uuidCanonical 0x12345678123456781234567812345678).length = 36
    ∧ '0' ∈ hexAlphabet := by
  refine ⟨(executor_value_normalization.2.2.2.2.1
      0x12345678123456781234567812345678).1,
    (executor_value_normalization.2.2.2.2.1
      0x12345678123456781234567812345678).2.1,
    (executor_value_normalization.2.2.2.2.2.1 [1, 2, 255]).2 '0' (by decide)⟩

/-- A database row: a mapping from column names to values. -/
abbrev Row := List (String × PyValue)

/-- Modelled from the spec: `SQLExecutor.execute` restricted to its
row-handling contract (spec section 4.3; the implementation
`pg_mcp/services/sql_executor.py` is not part of the repository).  All
rows are fetched from the backend; `total_row_count` is the full count;
only the first `max_rows` rows are returned, with their values
normalized.  Connection acquisition, timeouts and the transaction wrapper
are network effects outside this embedding. -/
def SQLExecutor.execute (backendRows : List Row) (max_rows : Nat) :
    List Row × Nat :=
  ((backendRows.take max_rows).map serializeKVs, backendRows.length)

/-- C4: against a backend result set of `n` rows with a row limit of `m`,
`execute` returns exactly `min n m` rows while reporting
`total_row_count = n`; whenever `m ≥ n` all `n` rows are returned
(normalized) and the two counts agree. -/
theorem executor_row_limit (backendRows : List Row) (max_rows : Nat) :
    (SQLExecutor.execute backendRows max_rows).2 = backendRows.length
    ∧ (SQLExecutor.execute backendRows max_rows).1.length
        = min backendRows.length max_rows
    ∧ (backendRows.length ≤ max_rows →
        (SQLExecutor.execute backendRows max_rows).1
            = backendRows.map serializeKVs
          ∧ (SQLExecutor.execute backendRows max_rows).1.length
              = (SQLExecutor.execute backendRows max_rows).2) := by
  refine ⟨rfl, ?_, ?_⟩
  · simp [SQLExecutor.execute, Nat.min_comm]
  · intro hle
    constructor
    · simp [SQLExecutor.execute, List.take_of_length_le hle]
    · simp only [SQLExecutor.execute, List.length_map, List.length_take]
      omega

/-- Concrete instance for `executor_row_limit`: 1500 backend rows with
`max_rows = 100` return 100 rows and report 1500; 5 rows with
`max_rows = 10` return all rows with matching counts. -/
theorem executor_row_limit_witness :
    (SQLExecutor.execute (List.replicate 1500 ([] : Row)) 100).1.length = 100
    ∧ (SQLExecutor.execute (List.replicate 1500 ([] : Row)) 100).2 = 1500
    ∧ (SQLExecutor.execute (List.replicate 5 ([] : Row)) 10).1.length
        = (SQLExecutor.execute (List.replicate 5 ([] : Row)) 10).2 := by
  refine ⟨?_, ?_, ?_⟩
  · have h := (executor_row_limit (List.replicate 1500 ([] : Row)) 100).2.1
    rw [List.length_replicate] at h
    omega
  · have h := (executor_row_limit (List.replicate 1500 ([] : Row)) 100).1
    rw [List.length_replicate] at h
    exact h
  · exact ((executor_row_limit (List.replicate 5 ([] : Row)) 10).2.2
      (by rw [List.length_replicate]; omega)).2

/-- Modelled from the spec: the orchestrator configuration the
`process_query` state machine reads, namely the ordered list of
configured database names and the shared retry budget (spec section
4.6). -/
structure OrchestratorConfig where
  databases : List String
  max_attempts : Nat

/-- Modelled from the spec: the `QueryOutcome` shape of spec section 6:
success flag, final SQL used, row data, row count, execution time,
database name and optional error message. -/
structure QueryOutcome where
  success : Bool
  sql : String
  rows : List Row
  row_count : Nat
  execution_time_ms : ℚ
  error : Option String
  database : String

/-- Modelled from the spec: one generate/validate/execute pipeline
attempt, abstracted as its observable outcome: either a classified error
message (generation, validation or execution failure) or the final SQL
with its rows and execution time.  The orchestrator loop consumes one
shared retry budget across all failure stages (spec section 4.6). -/
def runAttempts (att : Nat → Except String (String × List Row × ℚ)) :
    Nat → Nat → String → Except String (String × List Row × ℚ)
  | 0, _, last => .error last
  | fuel + 1, k, _last =>
      match att k with
      | .ok r => .ok r
      | .error e => runAttempts att fuel (k + 1) e

/-- Modelled from the spec: `QueryOrchestrator.process_query` (spec
section 4.6; `pg_mcp/services/orchestrator.py` is not part of the
repository).  Select the target database (an unknown name is an
immediate structured failure naming it; no name picks the first
configured database), then run the bounded retry loop; every path
returns a `QueryOutcome`, never a raised fault. -/
def QueryOrchestrator.process_query (cfg : OrchestratorConfig)
    (att : Nat → Except String (String × List Row × ℚ))
    (dbName : Option String) : QueryOutcome :=
  let run : String → QueryOutcome := fun db =>
    match runAttempts att cfg.max_attempts 1 "no attempts were made" with
    | .ok (sql, rows, t) => ⟨true, sql, rows, rows.length, t, none, db⟩
    | .error e => ⟨false, "", [], 0, 0, some ("Query failed: " ++ e), db⟩
  match dbName with
  | some n =>
      if n ∈ cfg.databases then run n
      else ⟨false, "", [], 0, 0,
        some ("Database '" ++ n ++ "' not found"), n⟩
  | none =>
      match cfg.databases.head? with
      | some n => run n
      | none => ⟨false, "", [], 0, 0, some "No database configured", ""⟩

lemma runAttempts_all_fail (att : Nat → Except String (String × List Row × ℚ)) :
    ∀ (fuel k : Nat) (last : String),
      (∀ j, k ≤ j → j < k + fuel → ∃ e, att j = .error e) →
      ∃ e, runAttempts att fuel k last = .error e := by
  intro fuel
  induction fuel with
  | zero =>
      intro k last _
      exact ⟨last, rfl⟩
  | succ n ih =>
      intro k last hall
      obtain ⟨e, he⟩ := hall k (by omega) (by omega)
      simp only [runAttempts, he]
      exact ih (k + 1) e (fun j hj1 hj2 => hall j (by omega) (by omega))

/-- C3: `process_query` is a total function into the `QueryOutcome`
shape (it never raises: every input yields a structured result); for an
unrecognized database name the result is a failure whose error message
names the unknown database; and when every pipeline attempt in the
retry window fails, the result is a failure carrying an error
description, whichever database was addressed. -/
theorem orchestrator_total_outcome (cfg : OrchestratorConfig)
    (att : Nat → Except String (String × List Row × ℚ))
    (dbName : Option String) (n : String) :
    (∃ outcome : QueryOutcome,
        QueryOrchestrator.process_query cfg att dbName = outcome)
    ∧ (n ∉ cfg.databases →
        (QueryOrchestrator.process_query cfg att (some n)).success = false
        ∧ ∃ pre suf, (QueryOrchestrator.process_query cfg att (some n)).error
            = some (pre ++ n ++ suf))
    ∧ ((∀ j, 1 ≤ j → j ≤ cfg.max_attempts → ∃ e, att j = .error e) →
        (QueryOrchestrator.process_query cfg att dbName).success = false
        ∧ (QueryOrchestrator.process_query cfg att dbName).error.isSome = true) := by
  refine ⟨⟨_, rfl⟩, ?_, ?_⟩
  · intro hn
    unfold QueryOrchestrator.process_query
    simp only [hn, if_false]
    exact ⟨by trivial, "Database '", "' not found", by trivial⟩
  · intro hfail
    have hrun : ∃ e, runAttempts att cfg.max_attempts 1 "no attempts were made"
        = .error e :=
      runAttempts_all_fail att cfg.max_attempts 1 _
        (fun j hj1 hj2 => hfail j hj1 (by omega))
    obtain ⟨e, he⟩ := hrun
    unfold QueryOrchestrator.process_query
    cases dbName with
    | some m =>
        by_cases hm : m ∈ cfg.databases
        · simp only [hm, if_true, he]
          exact ⟨by trivial, by trivial⟩
        · simp only [hm, if_false]
          exact ⟨by trivial, by trivial⟩
    | none =>
        cases hh : cfg.databases.head? with
        | some m =>
            simp only [hh, he]
            exact ⟨by trivial, by trivial⟩
        | none =>
            simp only [hh]
            exact ⟨by trivial, by trivial⟩

/-- Concrete instance for `orchestrator_total_outcome`: querying
`nonexistent_db` against a single-database configuration returns a
structured failure naming it, and a pipeline that always fails yields a
structured failure, not a raised fault. -/
theorem orchestrator_total_outcome_witness :
    (QueryOrchestrator.process_query ⟨["users_db"], 3⟩
        (fun _ => .error "invalid SQL") (some "nonexistent_db")).success = false
    ∧ (QueryOrchestrator.process_query ⟨["users_db"], 3⟩
        (fun _ => .error "invalid SQL") (some "users_db")).success = false := by
  refine ⟨?_, ?_⟩
  · exact ((orchestrator_total_outcome ⟨["users_db"], 3⟩
      (fun _ => .error "invalid SQL") (some "nonexistent_db")
      "nonexistent_db").2.1 (by decide)).1
  · exact ((orchestrator_total_outcome ⟨["users_db"], 3⟩
      (fun _ => .error "invalid SQL") (some "users_db")
      "users_db").2.2 (fun j hj1 hj2 => ⟨"invalid SQL", rfl⟩)).1
